import Mathlib

/-!
# Verification of the rotchess-ggez turn-synchronization protocol

Shallow embedding of the netcode/protocol core of `src/app.rs`:
the wire codec (`App.ser_thing` / `App.de_thing`), the turn-phase state
machine, local dispatch (`App.try_send_event`), remote reconciliation
(`App.update`) and the session/board lifecycle (`App.new`,
`App.key_down_event`).

Modelling conventions:
* `f32` values are represented by their 32-bit pattern (`Fin 4294967296`).
  The program only ever compares floats through their big-endian byte
  representation (`to_be_bytes` / `from_be_bytes`), which is a bijection
  between bit patterns and 4-byte strings, so this representation is exact.
* Byte buffers are `List Nat` whose entries are meant to be `< 256`.
* Rust panics (`expect`, `assert!`, `debug_assert!`, and the explicit
  `panic` on a malformed tag) are modelled by an `Option` result:
  `none` is the panic. Debug assertions are modelled as active, matching
  the documented intent of the code.
* The chess engine `rotchess_core::RotchessEmulator` is an external crate
  (an external collaborator in the design): it is modelled abstractly as a
  state type together with its `handle_event` step function and the board
  constructor used for resets.
* The transport `sfn_tpn::NetcodeInterface` is modelled by the read-only
  ownership flag `my_turn` plus the list of buffers passed to `send_turn`
  during one handler call (returned as an output).
-/

/-- Modelled from the spec: the constant `TURN_SIZE` is referenced by
`src/app.rs` but declared outside the provided sources; the spec fixes the
wire buffer at exactly 10 bytes (1 tag byte + 1 index byte + two 4-byte
big-endian floats). -/
def TURN_SIZE : Nat := 10

/-- Bit pattern of an IEEE-754 32-bit float: `4294967296 = 2 ^ 32`. -/
abbrev F32 := Fin 4294967296

/-- Rust `f32::to_be_bytes`: the four bytes of the bit pattern, most
significant first (`16777216 = 2 ^ 24`, `65536 = 2 ^ 16`). -/
def f32_to_be_bytes (f : F32) : List Nat :=
  [f.val / 16777216 % 256, f.val / 65536 % 256, f.val / 256 % 256, f.val % 256]

/-- Rust `f32::from_be_bytes`: reassemble a bit pattern from four bytes,
most significant first. -/
def f32_from_be_bytes (b0 b1 b2 b3 : Nat) : F32 :=
  ⟨b0 % 256 * 16777216 + b1 % 256 * 65536 + b2 % 256 * 256 + b3 % 256, by omega⟩

/-- Bit pattern of `0.0f32`, used as a generic payload in concrete tests. -/
def f32zero : F32 := ⟨0, by omega⟩

/-- Bit pattern of `-1000.0f32`, the coordinate of the off-board deselect
click synthesized in `App::try_send_event`. -/
def f32_neg1000 : F32 := ⟨0xC47A0000, by omega⟩

/-- Mouse buttons of `rotchess_core::emulator::MouseButton`. -/
inductive MouseButton
  | LEFT
  | RIGHT
deriving DecidableEq

/-- The event vocabulary of `rotchess_core::emulator::Event` used by
`src/app.rs` (coordinates and angles carried as `f32` bit patterns). -/
inductive Event
  | FirstTurn
  | PrevTurn
  | NextTurn
  | LastTurn
  | ButtonDown (x y : F32) (button : MouseButton)
  | ButtonUp (x y : F32) (button : MouseButton)
  | MouseMotion (x y : F32)
  | RotateUnchecked (piece_idx : Nat) (r : F32)
  | MoveUnchecked (piece_idx : Nat) (x y : F32)
deriving DecidableEq

/-- Observable engine effects, `rotchess_core::emulator::ThingHappened`.
The piece index is a Rust `usize`, modelled as `Nat`. -/
inductive ThingHappened
  | FirstTurn
  | PrevTurn
  | NextTurn
  | LastTurn
  | Rotate (piece_idx : Nat) (r : F32)
  | Move (piece_idx : Nat) (x y : F32)
deriving DecidableEq

/-- The `TurnPhase` enum of `src/app.rs`. -/
inductive TurnPhase
  | Move
  | Rotate
  | Wait
deriving DecidableEq

/-- The `ChessLayout` enum of `src/app.rs`. -/
inductive ChessLayout
  | Standard
  | Chess960
deriving DecidableEq

/-- Rust `slice[i..i+vs.length].copy_from_slice(vs)` on a list. -/
def write_slice (l : List Nat) (i : Nat) (vs : List Nat) : List Nat :=
  l.take i ++ vs ++ l.drop (i + vs.length)

/-- Rust `usize -> u8` conversion `(*piece_idx).try_into().expect(..)`:
panics (here `none`) when the index does not fit in a byte. -/
def usize_to_u8 (n : Nat) : Option Nat :=
  if n < 256 then some n else none

/-- The model of the external engine `rotchess_core::RotchessEmulator`
together with the pieces constructors: `handle_event` is the engine's step
function on its abstract state, and `with_pieces c` is
`RotchessEmulator::with(c.get_pieces())`. -/
structure EmulatorModel where
  State : Type
  handle_event : State → Event → State × Option ThingHappened
  with_pieces : ChessLayout → State

/-- The protocol-relevant state of `struct App` in `src/app.rs`:
the engine state `chess`, the `chess_layout`, the transport's ownership
flag (`netcode.my_turn()`), and the `turn_phase`. The purely graphical
fields (images, mouse position, unit conversion ratio) carry no protocol
state and are omitted. -/
structure App (σ : Type) where
  chess : σ
  chess_layout : ChessLayout
  my_turn : Bool
  turn_phase : TurnPhase

/-- `App::ser_thing`: serialize an optional effect into a `TURN_SIZE` byte
buffer. Starts from a zeroed buffer, writes the tag at byte 0 and the
payload after it; `none` is the panic of the `usize -> u8` conversion. -/
def App.ser_thing : Option ThingHappened → Option (List Nat)
  | some ThingHappened.FirstTurn => some ((List.replicate TURN_SIZE 0).set 0 1)
  | some ThingHappened.PrevTurn => some ((List.replicate TURN_SIZE 0).set 0 2)
  | some ThingHappened.NextTurn => some ((List.replicate TURN_SIZE 0).set 0 3)
  | some ThingHappened.LastTurn => some ((List.replicate TURN_SIZE 0).set 0 4)
  | some (ThingHappened.Rotate piece_idx r) =>
    match usize_to_u8 piece_idx with
    | some b =>
      some (write_slice (((List.replicate TURN_SIZE 0).set 0 5).set 1 b) 2 (f32_to_be_bytes r))
    | none => none
  | some (ThingHappened.Move piece_idx x y) =>
    match usize_to_u8 piece_idx with
    | some b =>
      some (write_slice
        (write_slice (((List.replicate TURN_SIZE 0).set 0 6).set 1 b) 2 (f32_to_be_bytes x))
        6 (f32_to_be_bytes y))
    | none => none
  | none => some ((List.replicate TURN_SIZE 0).set 0 7)

/-- `App::de_thing`: deserialize a byte buffer. The outer `Option` is the
panic on a malformed tag (`"Received malformed data from opponent."`); the
inner `Option ThingHappened` is the function's Rust return value. -/
def App.de_thing (thing : List Nat) : Option (Option ThingHappened) :=
  match thing.getD 0 0 with
  | 1 => some (some ThingHappened.FirstTurn)
  | 2 => some (some ThingHappened.PrevTurn)
  | 3 => some (some ThingHappened.NextTurn)
  | 4 => some (some ThingHappened.LastTurn)
  | 5 =>
    some (some (ThingHappened.Rotate (thing.getD 1 0)
      (f32_from_be_bytes (thing.getD 2 0) (thing.getD 3 0) (thing.getD 4 0) (thing.getD 5 0))))
  | 6 =>
    some (some (ThingHappened.Move (thing.getD 1 0)
      (f32_from_be_bytes (thing.getD 2 0) (thing.getD 3 0) (thing.getD 4 0) (thing.getD 5 0))
      (f32_from_be_bytes (thing.getD 6 0) (thing.getD 7 0) (thing.getD 8 0) (thing.getD 9 0))))
  | 7 => some none
  | _ => none

/-- The off-board deselect click synthesized in `App::try_send_event`:
`Event::ButtonDown x: -1000., y: -1000., button: RIGHT`. -/
def deselect_event : Event :=
  Event.ButtonDown f32_neg1000 f32_neg1000 MouseButton.RIGHT

/-- `App::try_send_event`: local dispatch. Returns the updated app state
and the list of buffers handed to `netcode.send_turn`; `none` is a panic
(the deselect `debug_assert!` failing, or `ser_thing` overflowing a byte).

Mirrors the source: nothing happens unless `netcode.my_turn()` and the
engine reports an effect; a `Move` effect in phase `Rotate` (resp. a
`Rotate` effect in phase `Move`) is reverted by replaying `Event::PrevTurn`
and transmits nothing; an accepted `Move` sets the phase to `Rotate`; an
accepted `Rotate` first sends the off-board deselect click, whose result
must be `none`, then sets the phase to `Wait`; every accepted effect,
navigation included, is then serialized and transmitted. -/
def App.try_send_event (M : EmulatorModel) (s : App M.State) (e : Event) :
    Option (App M.State × List (List Nat)) :=
  if s.my_turn then
    match M.handle_event s.chess e with
    | (c1, some th) =>
      match th with
      | ThingHappened.Move _ _ _ =>
        if s.turn_phase = TurnPhase.Rotate then
          some ({ s with chess := (M.handle_event c1 Event.PrevTurn).1 }, [])
        else
          match App.ser_thing (some th) with
          | some buf => some ({ s with chess := c1, turn_phase := TurnPhase.Rotate }, [buf])
          | none => none
      | ThingHappened.Rotate _ _ =>
        if s.turn_phase = TurnPhase.Move then
          some ({ s with chess := (M.handle_event c1 Event.PrevTurn).1 }, [])
        else
          match M.handle_event c1 deselect_event with
          | (c2, none) =>
            match App.ser_thing (some th) with
            | some buf => some ({ s with chess := c2, turn_phase := TurnPhase.Wait }, [buf])
            | none => none
          | (_, some _) => none
      | _ =>
        match App.ser_thing (some th) with
        | some buf => some ({ s with chess := c1 }, [buf])
        | none => none
    | (c1, none) => some ({ s with chess := c1 }, [])
  else some (s, [])

/-- `App::update` (the per-tick `EventHandler::update`): remote
reconciliation. `recv` is the result of the non-blocking
`netcode.try_recv_turn()`; the returned list holds the buffers handed to
`netcode.send_turn`; `none` is a panic (a failed `assert!` on the phase or
the malformed-tag panic inside `de_thing`). -/
def App.update (M : EmulatorModel) (s : App M.State) (recv : Option (List Nat)) :
    Option (App M.State × List (List Nat)) :=
  if s.my_turn then some (s, [])
  else
    match recv with
    | none => some (s, [])
    | some turn =>
      match App.de_thing turn with
      | none => none
      | some none => some (s, [])
      | some (some th) =>
        match th with
        | ThingHappened.FirstTurn =>
          some ({ s with chess := (M.handle_event s.chess Event.FirstTurn).1 }, [])
        | ThingHappened.PrevTurn =>
          some ({ s with chess := (M.handle_event s.chess Event.PrevTurn).1 }, [])
        | ThingHappened.NextTurn =>
          some ({ s with chess := (M.handle_event s.chess Event.NextTurn).1 }, [])
        | ThingHappened.LastTurn =>
          some ({ s with chess := (M.handle_event s.chess Event.LastTurn).1 }, [])
        | ThingHappened.Rotate piece_idx r =>
          if s.turn_phase = TurnPhase.Wait then
            some ({ s with
                    turn_phase := TurnPhase.Move
                    chess := (M.handle_event s.chess (Event.RotateUnchecked piece_idx r)).1 }, [])
          else none
        | ThingHappened.Move piece_idx x y =>
          if s.turn_phase = TurnPhase.Wait then
            match App.ser_thing none with
            | some ack =>
              some ({ s with
                      chess := (M.handle_event s.chess (Event.MoveUnchecked piece_idx x y)).1 },
                    [ack])
            | none => none
          else none

/-- The protocol-relevant core of `App::new`: the engine starts from the
standard board, the layout is `Standard`, and `turn_phase` is first set to
`Wait` and then reassigned to `Move` exactly when `netcode.my_turn()`. -/
def App.new (M : EmulatorModel) (my_turn : Bool) : App M.State :=
  let s : App M.State :=
    { chess := M.with_pieces ChessLayout.Standard
      chess_layout := ChessLayout.Standard
      my_turn := my_turn
      turn_phase := TurnPhase.Wait }
  { s with turn_phase := if my_turn then TurnPhase.Move else TurnPhase.Wait }

/-- Key inputs distinguished by `App::key_down_event`. -/
inductive KeyInput
  | arrowLeft (shift : Bool)
  | arrowRight (shift : Bool)
  | character (c : String)
  | other

/-- `App::key_down_event`: arrows dispatch navigation events through
`try_send_event`; the characters `"9"`, `"0"` and `"r"` re-instantiate the
board (and, for the digits, switch the layout) without touching any other
field. -/
def App.key_down_event (M : EmulatorModel) (s : App M.State) (input : KeyInput) :
    Option (App M.State × List (List Nat)) :=
  match input with
  | KeyInput.arrowLeft shift =>
    if shift then App.try_send_event M s Event.FirstTurn
    else App.try_send_event M s Event.PrevTurn
  | KeyInput.arrowRight shift =>
    if shift then App.try_send_event M s Event.LastTurn
    else App.try_send_event M s Event.NextTurn
  | KeyInput.character c =>
    if c = "9" then
      some ({ s with
              chess_layout := ChessLayout.Chess960
              chess := M.with_pieces ChessLayout.Chess960 }, [])
    else if c = "0" then
      some ({ s with
              chess_layout := ChessLayout.Standard
              chess := M.with_pieces ChessLayout.Standard }, [])
    else if c = "r" then
      some ({ s with chess := M.with_pieces s.chess_layout }, [])
    else some (s, [])
  | KeyInput.other => some (s, [])

/-- Concrete engine instance for tests: state is a step counter; on state 0
a `NextTurn` input reports a `Move` effect, on state 1 a `FirstTurn` input
reports a `Rotate` effect, and on state 2 any click (in particular the
off-board deselect click) reports nothing. -/
def cycleM : EmulatorModel where
  State := Nat
  handle_event := fun st e =>
    match st, e with
    | 0, Event.NextTurn => (1, some (ThingHappened.Move 2 f32zero f32zero))
    | 1, Event.FirstTurn => (2, some (ThingHappened.Rotate 2 f32zero))
    | 2, Event.ButtonDown _ _ _ => (3, none)
    | st, _ => (st, none)
  with_pieces := fun _ => 0

/-- Concrete engine instance for tests: reports a `NextTurn` navigation
effect on a `NextTurn` input and nothing otherwise. -/
def navM : EmulatorModel where
  State := Nat
  handle_event := fun st e =>
    match e with
    | Event.NextTurn => (st + 1, some ThingHappened.NextTurn)
    | _ => (st, none)
  with_pieces := fun _ => 0

/-- Concrete engine instance for tests: inert (no effect, no state change);
every freshly instantiated board is state 0. -/
def inertM : EmulatorModel where
  State := Nat
  handle_event := fun st _ => (st, none)
  with_pieces := fun _ => 0

/-- Test app state over `cycleM`: owns the turn, phase `Move`, engine at 0. -/
def cycleApp0 : App cycleM.State :=
  { chess := (0 : Nat), chess_layout := ChessLayout.Standard, my_turn := true,
    turn_phase := TurnPhase.Move }

/-- Test app state over `cycleM`: owns the turn, phase `Rotate`, engine at 1. -/
def cycleApp1 : App cycleM.State :=
  { chess := (1 : Nat), chess_layout := ChessLayout.Standard, my_turn := true,
    turn_phase := TurnPhase.Rotate }

/-- Test app state over `cycleM`: owns the turn, phase `Rotate`, engine at 0. -/
def cycleApp0r : App cycleM.State :=
  { chess := (0 : Nat), chess_layout := ChessLayout.Standard, my_turn := true,
    turn_phase := TurnPhase.Rotate }

/-- Test app state over `cycleM`: owns the turn, phase `Move`, engine at 1. -/
def cycleApp1m : App cycleM.State :=
  { chess := (1 : Nat), chess_layout := ChessLayout.Standard, my_turn := true,
    turn_phase := TurnPhase.Move }

/-- Test app state over `navM`: owns the turn, phase `Move`. -/
def navApp : App navM.State :=
  { chess := (0 : Nat), chess_layout := ChessLayout.Standard, my_turn := true,
    turn_phase := TurnPhase.Move }

/-- Test app state over `inertM`: does not own the turn, phase `Wait`. -/
def waitApp : App inertM.State :=
  { chess := (0 : Nat), chess_layout := ChessLayout.Standard, my_turn := false,
    turn_phase := TurnPhase.Wait }

/-- Test app state over `inertM`: does not own the turn, phase `Move`. -/
def moveApp : App inertM.State :=
  { chess := (0 : Nat), chess_layout := ChessLayout.Standard, my_turn := false,
    turn_phase := TurnPhase.Move }

/-- Test app state over `inertM`: owns the turn, phase `Wait` — the shape a
session that already completed its sub-turns is in before a board reset. -/
def resetApp : App inertM.State :=
  { chess := (5 : Nat), chess_layout := ChessLayout.Standard, my_turn := true,
    turn_phase := TurnPhase.Wait }

/-- Reassembling the four big-endian bytes of a 32-bit pattern gives back
the pattern: `from_be_bytes` is a left inverse of `to_be_bytes`. -/
theorem f32_from_to_be (f : F32) :
    f32_from_be_bytes (f.val / 16777216 % 256) (f.val / 65536 % 256) (f.val / 256 % 256)
      (f.val % 256) = f := by
  have hf := f.isLt
  apply Fin.ext
  simp only [f32_from_be_bytes]
  omega

/-- Closed form of `ser_thing` on a `Rotate` effect with a byte-sized index. -/
theorem ser_thing_rotate_eq (i : Nat) (r : F32) (hi : i < 256) :
    App.ser_thing (some (ThingHappened.Rotate i r)) =
      some [5, i, r.val / 16777216 % 256, r.val / 65536 % 256, r.val / 256 % 256, r.val % 256,
        0, 0, 0, 0] := by
  simp only [App.ser_thing, usize_to_u8, if_pos hi]
  rfl

/-- Closed form of `ser_thing` on a `Move` effect with a byte-sized index. -/
theorem ser_thing_move_eq (i : Nat) (x y : F32) (hi : i < 256) :
    App.ser_thing (some (ThingHappened.Move i x y)) =
      some [6, i, x.val / 16777216 % 256, x.val / 65536 % 256, x.val / 256 % 256, x.val % 256,
        y.val / 16777216 % 256, y.val / 65536 % 256, y.val / 256 % 256, y.val % 256] := by
  simp only [App.ser_thing, usize_to_u8, if_pos hi]
  rfl

/-- C1: round-trip law of the wire codec — decoding the encoding of any
representable effect (encoding succeeds exactly when the piece index fits
in a byte) reconstructs the effect exactly, discriminant, index and float
bit patterns included, and decoding the encoding of `None` yields `None`. -/
theorem ser_de_roundtrip :
    (∀ th : ThingHappened, ∀ buf, App.ser_thing (some th) = some buf →
      App.de_thing buf = some (some th)) ∧
    (∀ buf, App.ser_thing none = some buf → App.de_thing buf = some none) := by
  constructor
  · intro th buf h
    cases th with
    | FirstTurn =>
      simp only [App.ser_thing, Option.some.injEq] at h
      subst h
      rfl
    | PrevTurn =>
      simp only [App.ser_thing, Option.some.injEq] at h
      subst h
      rfl
    | NextTurn =>
      simp only [App.ser_thing, Option.some.injEq] at h
      subst h
      rfl
    | LastTurn =>
      simp only [App.ser_thing, Option.some.injEq] at h
      subst h
      rfl
    | Rotate i r =>
      by_cases hi : i < 256
      · rw [ser_thing_rotate_eq i r hi, Option.some.injEq] at h
        subst h
        exact congrArg (fun z => some (some (ThingHappened.Rotate i z))) (f32_from_to_be r)
      · simp [App.ser_thing, usize_to_u8, hi] at h
    | Move i x y =>
      by_cases hi : i < 256
      · rw [ser_thing_move_eq i x y hi, Option.some.injEq] at h
        subst h
        exact congrArg₂ (fun zx zy => some (some (ThingHappened.Move i zx zy)))
          (f32_from_to_be x) (f32_from_to_be y)
      · simp [App.ser_thing, usize_to_u8, hi] at h
  · intro buf h
    simp only [App.ser_thing, Option.some.injEq] at h
    subst h
    rfl

/-- C1 witness: the round-trip law instantiated at the boundary index 255
with the nontrivial bit pattern of `-1000.0f32`, and at the `None` buffer. -/
theorem ser_de_roundtrip_witness :
    App.de_thing [5, 255, 196, 122, 0, 0, 0, 0, 0, 0] =
      some (some (ThingHappened.Rotate 255 f32_neg1000)) ∧
    App.de_thing [7, 0, 0, 0, 0, 0, 0, 0, 0, 0] = some none := by
  constructor
  · exact ser_de_roundtrip.1 (ThingHappened.Rotate 255 f32_neg1000)
      [5, 255, 196, 122, 0, 0, 0, 0, 0, 0] rfl
  · exact ser_de_roundtrip.2 [7, 0, 0, 0, 0, 0, 0, 0, 0, 0] rfl

/-- C2: wire layout of the encoder — every produced buffer is exactly
`TURN_SIZE = 10` bytes; byte 0 carries the tag (`FirstTurn` 1, `PrevTurn`
2, `NextTurn` 3, `LastTurn` 4, `Rotate` 5, `Move` 6, absence 7); `Rotate`
puts the index in byte 1 and the angle's big-endian bytes in bytes 2-5;
`Move` puts the index in byte 1, x in bytes 2-5 and y in bytes 6-9; all
unused trailing bytes are zero. -/
theorem ser_thing_layout :
    TURN_SIZE = 10 ∧
    (∀ t buf, App.ser_thing t = some buf → buf.length = TURN_SIZE) ∧
    App.ser_thing (some ThingHappened.FirstTurn) = some [1, 0, 0, 0, 0, 0, 0, 0, 0, 0] ∧
    App.ser_thing (some ThingHappened.PrevTurn) = some [2, 0, 0, 0, 0, 0, 0, 0, 0, 0] ∧
    App.ser_thing (some ThingHappened.NextTurn) = some [3, 0, 0, 0, 0, 0, 0, 0, 0, 0] ∧
    App.ser_thing (some ThingHappened.LastTurn) = some [4, 0, 0, 0, 0, 0, 0, 0, 0, 0] ∧
    App.ser_thing none = some [7, 0, 0, 0, 0, 0, 0, 0, 0, 0] ∧
    (∀ i r, i < 256 → App.ser_thing (some (ThingHappened.Rotate i r)) =
      some ([5, i] ++ f32_to_be_bytes r ++ [0, 0, 0, 0])) ∧
    (∀ i x y, i < 256 → App.ser_thing (some (ThingHappened.Move i x y)) =
      some ([6, i] ++ f32_to_be_bytes x ++ f32_to_be_bytes y)) := by
  refine ⟨rfl, ?_, rfl, rfl, rfl, rfl, rfl, ?_, ?_⟩
  · intro t buf h
    match t with
    | none =>
      simp only [App.ser_thing, Option.some.injEq] at h
      subst h
      rfl
    | some ThingHappened.FirstTurn =>
      simp only [App.ser_thing, Option.some.injEq] at h
      subst h
      rfl
    | some ThingHappened.PrevTurn =>
      simp only [App.ser_thing, Option.some.injEq] at h
      subst h
      rfl
    | some ThingHappened.NextTurn =>
      simp only [App.ser_thing, Option.some.injEq] at h
      subst h
      rfl
    | some ThingHappened.LastTurn =>
      simp only [App.ser_thing, Option.some.injEq] at h
      subst h
      rfl
    | some (ThingHappened.Rotate i r) =>
      by_cases hi : i < 256
      · rw [ser_thing_rotate_eq i r hi, Option.some.injEq] at h
        subst h
        rfl
      · simp [App.ser_thing, usize_to_u8, hi] at h
    | some (ThingHappened.Move i x y) =>
      by_cases hi : i < 256
      · rw [ser_thing_move_eq i x y hi, Option.some.injEq] at h
        subst h
        rfl
      · simp [App.ser_thing, usize_to_u8, hi] at h
  · intro i r hi
    rw [ser_thing_rotate_eq i r hi]
    rfl
  · intro i x y hi
    rw [ser_thing_move_eq i x y hi]
    rfl

/-- C2 witness: the layout theorem instantiated at a concrete `Move` effect
with index 9 and the bit pattern of `-1000.0f32` in both coordinates. -/
theorem ser_thing_layout_witness :
    App.ser_thing (some (ThingHappened.Move 9 f32_neg1000 f32_neg1000)) =
      some ([6, 9] ++ f32_to_be_bytes f32_neg1000 ++ f32_to_be_bytes f32_neg1000) :=
  (ser_thing_layout.2.2.2.2.2.2.2.2) 9 f32_neg1000 f32_neg1000 (by omega)

/-- C7: fatal decode — any buffer of wire size whose tag byte lies outside
1-7 makes `de_thing` panic (modelled `none`, the fatal protocol violation,
which in particular is not the silently ignored `some none` no-op), while
every tag in 1-7 decodes without failure. -/
theorem de_thing_fatal_on_bad_tag :
    ∀ b : List Nat, b.length = TURN_SIZE →
      (¬ (1 ≤ b.getD 0 0 ∧ b.getD 0 0 ≤ 7) → App.de_thing b = none) ∧
      (1 ≤ b.getD 0 0 ∧ b.getD 0 0 ≤ 7 → (App.de_thing b).isSome = true) := by
  intro b _
  constructor
  · intro hbad
    unfold App.de_thing
    split
    · exact absurd (by omega) hbad
    · exact absurd (by omega) hbad
    · exact absurd (by omega) hbad
    · exact absurd (by omega) hbad
    · exact absurd (by omega) hbad
    · exact absurd (by omega) hbad
    · exact absurd (by omega) hbad
    · rfl
  · intro hgood
    have h : b.getD 0 0 = 1 ∨ b.getD 0 0 = 2 ∨ b.getD 0 0 = 3 ∨ b.getD 0 0 = 4 ∨
        b.getD 0 0 = 5 ∨ b.getD 0 0 = 6 ∨ b.getD 0 0 = 7 := by omega
    unfold App.de_thing
    rcases h with h | h | h | h | h | h | h <;> rw [h] <;> rfl

/-- C7 witness: the fatal-decode theorem instantiated at a buffer with tag
9 (panic) and at a buffer with tag 7 (successful decode). -/
theorem de_thing_fatal_on_bad_tag_witness :
    App.de_thing [9, 0, 0, 0, 0, 0, 0, 0, 0, 0] = none ∧
    (App.de_thing [7, 1, 2, 3, 4, 5, 6, 7, 8, 9]).isSome = true := by
  constructor
  · exact (de_thing_fatal_on_bad_tag [9, 0, 0, 0, 0, 0, 0, 0, 0, 0] rfl).1 (by decide)
  · exact (de_thing_fatal_on_bad_tag [7, 1, 2, 3, 4, 5, 6, 7, 8, 9] rfl).2 (by decide)

/-- Closed form of `de_thing` on a buffer whose tag byte is 5. -/
theorem de_thing_eq_tag5 (b : List Nat) (h : b.getD 0 0 = 5) :
    App.de_thing b = some (some (ThingHappened.Rotate (b.getD 1 0)
      (f32_from_be_bytes (b.getD 2 0) (b.getD 3 0) (b.getD 4 0) (b.getD 5 0)))) := by
  unfold App.de_thing
  rw [h]

/-- Closed form of `de_thing` on a buffer whose tag byte is 6. -/
theorem de_thing_eq_tag6 (b : List Nat) (h : b.getD 0 0 = 6) :
    App.de_thing b = some (some (ThingHappened.Move (b.getD 1 0)
      (f32_from_be_bytes (b.getD 2 0) (b.getD 3 0) (b.getD 4 0) (b.getD 5 0))
      (f32_from_be_bytes (b.getD 6 0) (b.getD 7 0) (b.getD 8 0) (b.getD 9 0)))) := by
  unfold App.de_thing
  rw [h]

/-- C10: the decoder ignores unused bytes — buffers agreeing on the tag
byte decode equally for tags 1-4 and 7 whatever bytes 1-9 hold; for tag 5
the result depends only on bytes 0-5, for tag 6 only on bytes 0-9; hence
re-encoding a decoded buffer zeroes the unused bytes, so encode after
decode is not the identity on valid-tag buffers with nonzero unused
bytes. -/
theorem de_thing_ignores_unused_bytes :
    (∀ b b' : List Nat, b.length = TURN_SIZE → b'.length = TURN_SIZE →
      b.getD 0 0 = b'.getD 0 0 →
      (b.getD 0 0 = 1 ∨ b.getD 0 0 = 2 ∨ b.getD 0 0 = 3 ∨ b.getD 0 0 = 4 ∨ b.getD 0 0 = 7) →
      App.de_thing b = App.de_thing b') ∧
    (∀ b b' : List Nat, b.length = TURN_SIZE → b'.length = TURN_SIZE →
      b.getD 0 0 = 5 → (∀ j, j < 6 → b.getD j 0 = b'.getD j 0) →
      App.de_thing b = App.de_thing b') ∧
    (∀ b b' : List Nat, b.length = TURN_SIZE → b'.length = TURN_SIZE →
      b.getD 0 0 = 6 → (∀ j, j < 10 → b.getD j 0 = b'.getD j 0) →
      App.de_thing b = App.de_thing b') ∧
    (App.de_thing [1, 1, 1, 1, 1, 1, 1, 1, 1, 1] = some (some ThingHappened.FirstTurn) ∧
      App.ser_thing (some ThingHappened.FirstTurn) = some [1, 0, 0, 0, 0, 0, 0, 0, 0, 0] ∧
      ([1, 1, 1, 1, 1, 1, 1, 1, 1, 1] : List Nat) ≠ [1, 0, 0, 0, 0, 0, 0, 0, 0, 0]) := by
  refine ⟨?_, ?_, ?_, rfl, rfl, by decide⟩
  · intro b b' _ _ htag hset
    have hset' := hset
    rw [htag] at hset'
    unfold App.de_thing
    rw [htag]
    rcases hset' with h | h | h | h | h <;> rw [h]
  · intro b b' _ _ htag hj
    have h0 : b'.getD 0 0 = 5 := by rw [← hj 0 (by omega)]; exact htag
    rw [de_thing_eq_tag5 b htag, de_thing_eq_tag5 b' h0, hj 1 (by omega), hj 2 (by omega),
      hj 3 (by omega), hj 4 (by omega), hj 5 (by omega)]
  · intro b b' _ _ htag hj
    have h0 : b'.getD 0 0 = 6 := by rw [← hj 0 (by omega)]; exact htag
    rw [de_thing_eq_tag6 b htag, de_thing_eq_tag6 b' h0, hj 1 (by omega), hj 2 (by omega),
      hj 3 (by omega), hj 4 (by omega), hj 5 (by omega), hj 6 (by omega), hj 7 (by omega),
      hj 8 (by omega), hj 9 (by omega)]

/-- C10 witness: tag-5 buffers agreeing on bytes 0-5 but differing in the
unused trailing bytes decode to the same event. -/
theorem de_thing_ignores_unused_bytes_witness :
    App.de_thing [5, 3, 0, 0, 1, 2, 9, 9, 9, 9] = App.de_thing [5, 3, 0, 0, 1, 2, 0, 0, 0, 0] :=
  de_thing_ignores_unused_bytes.2.1 [5, 3, 0, 0, 1, 2, 9, 9, 9, 9] [5, 3, 0, 0, 1, 2, 0, 0, 0, 0]
    rfl rfl rfl (by decide)

/-- C6: ownership gate — when the local session does not hold turn
ownership, `try_send_event` drops the event silently: the engine is not
invoked (the state, `chess` included, is returned unchanged) and nothing
is transmitted. -/
theorem try_send_event_ownership_gate (M : EmulatorModel) (s : App M.State) (e : Event)
    (h : s.my_turn = false) :
    App.try_send_event M s e = some (s, []) := by
  simp [App.try_send_event, h]

/-- C6 witness: the ownership gate at a concrete non-owning state. -/
theorem try_send_event_ownership_gate_witness :
    App.try_send_event inertM waitApp Event.NextTurn = some (waitApp, []) :=
  try_send_event_ownership_gate inertM waitApp Event.NextTurn rfl

/-- C3: full local turn cycle — holding ownership in phase `Move`, a local
`Move` effect sets the phase to `Rotate` and transmits exactly the one
buffer encoding it; then, in phase `Rotate`, a local `Rotate` effect first
synthesizes the off-board deselect click, whose engine result must be
`none` (any observable effect is the modelled assertion failure), sets the
phase to `Wait` and transmits exactly the one buffer encoding the
`Rotate`. -/
theorem try_send_event_full_turn_cycle (M : EmulatorModel) (s : App M.State) (e : Event)
    (i : Nat) (x y r : F32) (c1 c2 : M.State) (bufm bufr : List Nat)
    (hmt : s.my_turn = true) :
    (s.turn_phase = TurnPhase.Move →
      M.handle_event s.chess e = (c1, some (ThingHappened.Move i x y)) →
      App.ser_thing (some (ThingHappened.Move i x y)) = some bufm →
      App.try_send_event M s e =
        some ({ s with chess := c1, turn_phase := TurnPhase.Rotate }, [bufm])) ∧
    (s.turn_phase = TurnPhase.Rotate →
      M.handle_event s.chess e = (c1, some (ThingHappened.Rotate i r)) →
      (M.handle_event c1 deselect_event = (c2, none) →
        App.ser_thing (some (ThingHappened.Rotate i r)) = some bufr →
        App.try_send_event M s e =
          some ({ s with chess := c2, turn_phase := TurnPhase.Wait }, [bufr])) ∧
      (∀ th2, M.handle_event c1 deselect_event = (c2, some th2) →
        App.try_send_event M s e = none)) := by
  constructor
  · intro hp hhe hser
    simp [App.try_send_event, hmt, hhe, hp, hser]
  · intro hp hhe
    constructor
    · intro hdes hser
      simp [App.try_send_event, hmt, hhe, hp, hdes, hser]
    · intro th2 hdes
      simp [App.try_send_event, hmt, hhe, hp, hdes]

/-- C3 witness: the full cycle run on the scripted engine `cycleM`: the
`Move` step from `cycleApp0` transmits the `Move` buffer and reaches phase
`Rotate`; the `Rotate` step from `cycleApp1` passes the deselect
assertion, transmits the `Rotate` buffer and reaches phase `Wait`. -/
theorem try_send_event_full_turn_cycle_witness :
    App.try_send_event cycleM cycleApp0 Event.NextTurn =
      some ({ cycleApp0 with chess := (1 : Nat), turn_phase := TurnPhase.Rotate },
        [[6, 2, 0, 0, 0, 0, 0, 0, 0, 0]]) ∧
    App.try_send_event cycleM cycleApp1 Event.FirstTurn =
      some ({ cycleApp1 with chess := (3 : Nat), turn_phase := TurnPhase.Wait },
        [[5, 2, 0, 0, 0, 0, 0, 0, 0, 0]]) := by
  constructor
  · exact (try_send_event_full_turn_cycle cycleM cycleApp0 Event.NextTurn 2 f32zero f32zero
      f32zero (1 : Nat) (3 : Nat) [6, 2, 0, 0, 0, 0, 0, 0, 0, 0] [5, 2, 0, 0, 0, 0, 0, 0, 0, 0] rfl).1
      rfl rfl rfl
  · exact ((try_send_event_full_turn_cycle cycleM cycleApp1 Event.FirstTurn 2 f32zero f32zero
      f32zero (2 : Nat) (3 : Nat) [6, 2, 0, 0, 0, 0, 0, 0, 0, 0] [5, 2, 0, 0, 0, 0, 0, 0, 0, 0] rfl).2
      rfl rfl).1 rfl rfl

/-- C4: wrong-sub-phase rejection — with ownership held, a `Move` effect
in phase `Rotate` (resp. a `Rotate` effect in phase `Move`) is undone by
replaying `Event::PrevTurn` against the engine, transmits nothing, and
leaves the phase unchanged. -/
theorem try_send_event_wrong_phase_reverts (M : EmulatorModel) (s : App M.State) (e : Event)
    (i : Nat) (x y r : F32) (c1 : M.State) (hmt : s.my_turn = true) :
    (s.turn_phase = TurnPhase.Rotate →
      M.handle_event s.chess e = (c1, some (ThingHappened.Move i x y)) →
      App.try_send_event M s e =
        some ({ s with chess := (M.handle_event c1 Event.PrevTurn).1 }, [])) ∧
    (s.turn_phase = TurnPhase.Move →
      M.handle_event s.chess e = (c1, some (ThingHappened.Rotate i r)) →
      App.try_send_event M s e =
        some ({ s with chess := (M.handle_event c1 Event.PrevTurn).1 }, [])) := by
  constructor
  · intro hp hhe
    simp [App.try_send_event, hmt, hhe, hp]
  · intro hp hhe
    simp [App.try_send_event, hmt, hhe, hp]

/-- C4 witness: both rejections on the scripted engine `cycleM` — a `Move`
effect while in phase `Rotate` and a `Rotate` effect while in phase
`Move`; each replays `PrevTurn`, transmits nothing and keeps its phase. -/
theorem try_send_event_wrong_phase_reverts_witness :
    App.try_send_event cycleM cycleApp0r Event.NextTurn =
      some ({ cycleApp0r with chess := (1 : Nat) }, []) ∧
    App.try_send_event cycleM cycleApp1m Event.FirstTurn =
      some ({ cycleApp1m with chess := (2 : Nat) }, []) := by
  constructor
  · exact (try_send_event_wrong_phase_reverts cycleM cycleApp0r Event.NextTurn 2 f32zero
      f32zero f32zero (1 : Nat) rfl).1 rfl rfl
  · exact (try_send_event_wrong_phase_reverts cycleM cycleApp1m Event.FirstTurn 2 f32zero
      f32zero f32zero (2 : Nat) rfl).2 rfl rfl

/-- C5: remote reconciliation — a buffer received while not holding
ownership: a decoded `Rotate` requires phase `Wait` (asserted: any other
phase is the modelled panic), is applied through the unchecked entry
point `Event::RotateUnchecked` and moves the phase to `Move`; a decoded
`Move` requires phase `Wait`, is applied through `Event::MoveUnchecked`,
leaves the phase at `Wait` and transmits back exactly the encoded absence
buffer; a decoded absence changes no phase and applies no effect. -/
theorem update_remote_reconciliation (M : EmulatorModel) (s : App M.State)
    (turn ack : List Nat) (i : Nat) (r x y : F32) (hmt : s.my_turn = false) :
    (App.de_thing turn = some (some (ThingHappened.Rotate i r)) →
      (s.turn_phase = TurnPhase.Wait →
        App.update M s (some turn) =
          some ({ s with
                  turn_phase := TurnPhase.Move
                  chess := (M.handle_event s.chess (Event.RotateUnchecked i r)).1 }, [])) ∧
      (s.turn_phase ≠ TurnPhase.Wait → App.update M s (some turn) = none)) ∧
    (App.de_thing turn = some (some (ThingHappened.Move i x y)) →
      App.ser_thing none = some ack →
      (s.turn_phase = TurnPhase.Wait →
        App.update M s (some turn) =
          some ({ s with chess := (M.handle_event s.chess (Event.MoveUnchecked i x y)).1 },
            [ack])) ∧
      (s.turn_phase ≠ TurnPhase.Wait → App.update M s (some turn) = none)) ∧
    (App.de_thing turn = some none → App.update M s (some turn) = some (s, [])) := by
  refine ⟨?_, ?_, ?_⟩
  · intro hde
    constructor
    · intro hp
      simp [App.update, hmt, hde, hp]
    · intro hp
      simp [App.update, hmt, hde, hp]
  · intro hde hser
    constructor
    · intro hp
      simp [App.update, hmt, hde, hp, hser]
    · intro hp
      simp [App.update, hmt, hde, hp]
  · intro hde
    simp [App.update, hmt, hde]

/-- C5 witness: over the inert engine, a received `Rotate` buffer in phase
`Wait` moves the phase to `Move`; the same buffer in phase `Move` is the
modelled assertion panic; a received `Move` buffer in phase `Wait` keeps
`Wait` and sends back the absence buffer; a received absence buffer
changes nothing. -/
theorem update_remote_reconciliation_witness :
    App.update inertM waitApp (some [5, 2, 0, 0, 0, 0, 0, 0, 0, 0]) =
      some ({ waitApp with turn_phase := TurnPhase.Move }, []) ∧
    App.update inertM moveApp (some [5, 2, 0, 0, 0, 0, 0, 0, 0, 0]) = none ∧
    App.update inertM waitApp (some [6, 2, 0, 0, 0, 0, 0, 0, 0, 0]) =
      some (waitApp, [[7, 0, 0, 0, 0, 0, 0, 0, 0, 0]]) ∧
    App.update inertM waitApp (some [7, 1, 2, 3, 4, 5, 6, 7, 8, 9]) = some (waitApp, []) := by
  refine ⟨?_, ?_, ?_, ?_⟩
  · exact ((update_remote_reconciliation inertM waitApp [5, 2, 0, 0, 0, 0, 0, 0, 0, 0]
      [7, 0, 0, 0, 0, 0, 0, 0, 0, 0] 2 f32zero f32zero f32zero rfl).1 rfl).1 rfl
  · exact ((update_remote_reconciliation inertM moveApp [5, 2, 0, 0, 0, 0, 0, 0, 0, 0]
      [7, 0, 0, 0, 0, 0, 0, 0, 0, 0] 2 f32zero f32zero f32zero rfl).1 rfl).2 (by decide)
  · exact ((update_remote_reconciliation inertM waitApp [6, 2, 0, 0, 0, 0, 0, 0, 0, 0]
      [7, 0, 0, 0, 0, 0, 0, 0, 0, 0] 2 f32zero f32zero f32zero rfl).2.1 rfl rfl).1 rfl
  · exact (update_remote_reconciliation inertM waitApp [7, 1, 2, 3, 4, 5, 6, 7, 8, 9]
      [7, 0, 0, 0, 0, 0, 0, 0, 0, 0] 2 f32zero f32zero f32zero rfl).2.2 rfl

/-- C8 counterexample: local dispatch does transmit navigation effects.
On the scripted engine `navM`, with ownership held, a locally observed
`NextTurn` effect falls through the phase match into
`netcode.send_turn(..)`: one buffer (tag 3) is transmitted, refuting the
claim that navigation events are not transmitted as part of local
dispatch. -/
theorem navigation_not_transmitted_counterexample :
    App.try_send_event navM navApp Event.NextTurn =
      some ({ navApp with chess := (1 : Nat) }, [[3, 0, 0, 0, 0, 0, 0, 0, 0, 0]]) ∧
    ([[3, 0, 0, 0, 0, 0, 0, 0, 0, 0]] : List (List Nat)) ≠ [] := by
  exact ⟨rfl, by decide⟩

/-- C8 amended: for every locally observed navigation effect the turn
phase is unchanged, but the effect IS serialized and transmitted to the
peer (exactly one buffer carrying it) whenever ownership is held — the
asymmetry is only that the local dispatch of the receiving side never
reaches `try_send_event` for it. -/
theorem try_send_event_navigation_transmits (M : EmulatorModel) (s : App M.State) (e : Event)
    (th : ThingHappened) (c1 : M.State) (buf : List Nat) (hmt : s.my_turn = true)
    (hnav : th = ThingHappened.FirstTurn ∨ th = ThingHappened.PrevTurn ∨
      th = ThingHappened.NextTurn ∨ th = ThingHappened.LastTurn)
    (hhe : M.handle_event s.chess e = (c1, some th))
    (hser : App.ser_thing (some th) = some buf) :
    App.try_send_event M s e = some ({ s with chess := c1 }, [buf]) := by
  rcases hnav with h | h | h | h <;> subst h <;> simp [App.try_send_event, hmt, hhe, hser]

/-- C8 amended witness: the navigation transmission at a concrete
`NextTurn` effect on the scripted engine `navM`. -/
theorem try_send_event_navigation_transmits_witness :
    App.try_send_event navM navApp Event.NextTurn =
      some ({ navApp with chess := (1 : Nat) }, [[3, 0, 0, 0, 0, 0, 0, 0, 0, 0]]) :=
  try_send_event_navigation_transmits navM navApp Event.NextTurn ThingHappened.NextTurn
    (1 : Nat) [3, 0, 0, 0, 0, 0, 0, 0, 0, 0] rfl (Or.inr (Or.inr (Or.inl rfl))) rfl rfl

/-- C9 counterexample: a board reset does not reinitialize the phase. The
session `resetApp` holds ownership, so the initialization rule would give
phase `Move` (as `App.new` does), but pressing `"r"` re-instantiates the
board and leaves the phase at `Wait`. -/
theorem board_reset_phase_counterexample :
    resetApp.my_turn = true ∧
    (App.new inertM true).turn_phase = TurnPhase.Move ∧
    App.key_down_event inertM resetApp (KeyInput.character "r") =
      some ({ resetApp with chess := (0 : Nat) }, []) ∧
    ({ resetApp with chess := (0 : Nat) } : App inertM.State).turn_phase ≠ TurnPhase.Move := by
  refine ⟨rfl, rfl, rfl, by decide⟩

/-- C9 amended: at session start the phase is `Move` exactly when this
peer holds turn ownership (`Wait` otherwise); a board reset (keys `"9"`,
`"0"`, `"r"`) re-instantiates the board but leaves the turn phase
unchanged rather than reinitializing it. -/
theorem turn_phase_init_and_reset (M : EmulatorModel) (s : App M.State) (mt : Bool) (c : String)
    (hc : c = "9" ∨ c = "0" ∨ c = "r") :
    (App.new M mt).turn_phase = (if mt then TurnPhase.Move else TurnPhase.Wait) ∧
    (App.key_down_event M s (KeyInput.character c)).map (fun p => p.1.turn_phase) =
      some s.turn_phase := by
  constructor
  · rfl
  · rcases hc with h | h | h <;> subst h <;> rfl

/-- C9 amended witness: initialization and the `"r"` reset at the concrete
session `resetApp`. -/
theorem turn_phase_init_and_reset_witness :
    (App.new inertM true).turn_phase = (if true then TurnPhase.Move else TurnPhase.Wait) ∧
    (App.key_down_event inertM resetApp (KeyInput.character "r")).map
      (fun p => p.1.turn_phase) = some resetApp.turn_phase :=
  turn_phase_init_and_reset inertM resetApp true "r" (Or.inr (Or.inr rfl))
